import Mathlib

/-!
Verification of the professor-name normalization, search-key generation and
fuzzy-matching component of the CourseScout repository
(`src/lib/utils/professor-name-utils.ts`, `src/lib/ratemyprof-api.ts`,
`src/lib/services/professor-service.ts`).

Names are modelled as `List Char` (JavaScript strings restricted to the
character operations the component performs).  JavaScript semantics is
embedded explicitly:

* `String.prototype.toLowerCase` is modelled on the ASCII range (`jsToLower`);
  every character the component itself produces or compares is ASCII.
* The regular expression character class `\s` (and `String.prototype.trim`)
  is modelled by the ASCII whitespace characters (`jsIsSpace`).
* `\b` word boundaries use the JavaScript `\w` class `[A-Za-z0-9_]`
  (`isWordChar`).
* The two title-stripping regular expressions are modelled by an explicit
  left-to-right scan with first-alternative preference (exactly the
  backtracking behaviour of the JavaScript engine on these patterns):
  `stripTitlesNB` models `/\b(dr|prof|professor|mr|ms|mrs)\.?\s*/g` from
  `normalizeName` (no word boundary AFTER the title), and `stripTitlesWB`
  models `/\b(dr|prof|professor|mr|ms|mrs)\b\.?\s*/gi` from
  `isNameMatch`/`generateSearchKeys` (with a trailing word boundary).
* Floating point ratio guards are replaced by exact rational comparisons:
  for natural numbers `a`, `b` of string-length size, the double computation
  `a / b > 0.4` agrees with `5 * a > 2 * b`, `a / b > 0.5` agrees with
  `2 * a > b`, and `Math.ceil(n * 0.5)` equals `(n + 1) / 2` (`n * 0.5` is
  exact, and the spacing of the rationals involved exceeds the rounding
  error of one double division by many orders of magnitude).
* JavaScript `Set` keeps insertion order and deduplicates; it is modelled by
  `insertUniq` over lists.  The `Set<any>` of candidate objects in
  `searchProfessor` deduplicates by object identity, which is modelled by
  working with candidate list positions.
-/

namespace CourseScout

/-- ASCII whitespace, modelling the JavaScript `\s` class and `trim()`. -/
def jsIsSpace (c : Char) : Bool :=
  c = ' ' || c = '\t' || c = '\n' || c = '\r' || c = '\x0b' || c = '\x0c'

/-- The JavaScript `\w` class `[A-Za-z0-9_]`, used for `\b` boundaries. -/
def isWordChar (c : Char) : Bool :=
  ('a' ≤ c && c ≤ 'z') || ('A' ≤ c && c ≤ 'Z') || ('0' ≤ c && c ≤ '9') || c = '_'

/-- `toLowerCase` on the ASCII range. -/
def jsToLower (c : Char) : Char :=
  if 'A' ≤ c ∧ c ≤ 'Z' then Char.ofNat (c.toNat + 32) else c

/-- Characters kept by `normalizeName`'s `.replace(/[^a-z\s]/g, '')`. -/
def keepChar (c : Char) : Bool :=
  ('a' ≤ c && c ≤ 'z') || jsIsSpace c

def lowerJS (l : List Char) : List Char := l.map jsToLower

/-- `String.prototype.trim` (ASCII whitespace model). -/
def trimJS (l : List Char) : List Char :=
  ((l.dropWhile jsIsSpace).reverse.dropWhile jsIsSpace).reverse

/-- `str.split(sep)` for a single-character separator: splits at every
occurrence, keeping empty pieces (JavaScript semantics). -/
def splitCharOn (sep : Char) : List Char → List (List Char)
  | [] => [[]]
  | c :: cs =>
    match splitCharOn sep cs with
    | [] => [[]]
    | w :: ws => if c = sep then [] :: w :: ws else (c :: w) :: ws

/-- `str.split(regex)` for a character-class-plus regex such as `/\s+/` or
`/[\s-]+/`: splits on maximal runs of separator characters; a leading or
trailing run contributes an empty piece (JavaScript semantics). -/
def splitRuns (p : Char → Bool) : List Char → List (List Char)
  | [] => [[]]
  | c :: cs =>
    let r := splitRuns p cs
    if p c then
      match cs with
      | [] => [] :: r
      | d :: _ =>
        if p d then r
        else [] :: r
    else
      match r with
      | [] => [[c]]
      | w :: ws => (c :: w) :: ws

/-- The six title alternatives, in the order they appear in both regexes:
`dr|prof|professor|mr|ms|mrs`. -/
def titleAlts : List (List Char) :=
  [['d','r'], ['p','r','o','f'], ['p','r','o','f','e','s','s','o','r'],
   ['m','r'], ['m','s'], ['m','r','s']]

/-- Alternation for `normalizeName`'s regex (no trailing `\b`): the first
alternative that is a literal prefix wins, so `professor` is unreachable
behind `prof`.  Returns the number of characters matched. -/
def matchTitleNB (l : List Char) : Option Nat :=
  if List.isPrefixOf ['d','r'] l then some 2
  else if List.isPrefixOf ['p','r','o','f'] l then some 4
  else if List.isPrefixOf ['p','r','o','f','e','s','s','o','r'] l then some 9
  else if List.isPrefixOf ['m','r'] l then some 2
  else if List.isPrefixOf ['m','s'] l then some 2
  else if List.isPrefixOf ['m','r','s'] l then some 3
  else none

/-- True when a `\b` holds after a just-matched title: end of input or a
non-word character. -/
def noWordAfter : List Char → Bool
  | [] => true
  | c :: _ => !isWordChar c

/-- Alternation for the `isNameMatch`/`generateSearchKeys` regex (with a
trailing `\b`): an alternative only wins if a word boundary follows, with
backtracking to later alternatives otherwise (so `mrs` wins over `mr`, and
`professor` over `prof`). -/
def matchTitleWB (l : List Char) : Option Nat :=
  if List.isPrefixOf ['d','r'] l && noWordAfter (l.drop 2) then some 2
  else if List.isPrefixOf ['p','r','o','f'] l && noWordAfter (l.drop 4) then some 4
  else if List.isPrefixOf ['p','r','o','f','e','s','s','o','r'] l && noWordAfter (l.drop 9) then some 9
  else if List.isPrefixOf ['m','r'] l && noWordAfter (l.drop 2) then some 2
  else if List.isPrefixOf ['m','s'] l && noWordAfter (l.drop 2) then some 2
  else if List.isPrefixOf ['m','r','s'] l && noWordAfter (l.drop 3) then some 3
  else none

/-- State of the left-to-right global-replace scan:
`scan pw` is normal scanning (`pw` = previous character is a word character,
for computing `\b`); `skip n` is inside a matched title with `n` characters
of it still to drop; `spaces` is consuming the `\.?\s*` tail of a match. -/
inductive StripState where
  | scan (prevWord : Bool)
  | skip (n : Nat)
  | spaces

/-- One pass of `str.replace(regex, '')` for the title regexes: the scan
tries a match at every position where a `\b` holds (titles start with word
characters, so that means: previous character absent or not a word
character), removes the matched `title`, optional `.` and trailing
whitespace, and resumes scanning right after the match, as the JavaScript
engine does. -/
def stripAux (f : List Char → Option Nat) : StripState → List Char → List Char
  | _, [] => []
  | .scan pw, c :: cs =>
    if pw then c :: stripAux f (.scan (isWordChar c)) cs
    else
      match f (c :: cs) with
      | some k => stripAux f (.skip (k - 1)) cs
      | none => c :: stripAux f (.scan (isWordChar c)) cs
  | .skip (n+1), _ :: cs => stripAux f (.skip n) cs
  | .skip 0, c :: cs =>
    if c = '.' then stripAux f .spaces cs
    else if jsIsSpace c then stripAux f .spaces cs
    else c :: stripAux f (.scan (isWordChar c)) cs
  | .spaces, c :: cs =>
    if jsIsSpace c then stripAux f .spaces cs
    else
      match f (c :: cs) with
      | some k => stripAux f (.skip (k - 1)) cs
      | none => c :: stripAux f (.scan (isWordChar c)) cs

/-- `s.replace(/\b(dr|prof|professor|mr|ms|mrs)\.?\s*/g, '')` — the variant
used by `normalizeName` (professor-name-utils.ts line 17), which has NO
word boundary after the title group. -/
def stripTitlesNB (l : List Char) : List Char := stripAux matchTitleNB (.scan false) l

/-- `s.replace(/\b(dr|prof|professor|mr|ms|mrs)\b\.?\s*/gi, '')` — the
variant used by `isNameMatch` (ratemyprof-api.ts line 139) and
`generateSearchKeys` (line 234).  The `i` flag is irrelevant because every
call site lowercases first. -/
def stripTitlesWB (l : List Char) : List Char := stripAux matchTitleWB (.scan false) l

/-- `normalizeName` from src/lib/utils/professor-name-utils.ts lines 14-20:
lowercase, strip titles (no trailing boundary), delete every character that
is not a lowercase letter or whitespace, trim. -/
def normalizeName (name : List Char) : List Char :=
  trimJS ((stripTitlesNB (lowerJS name)).filter keepChar)

/-- The nickname table of `isNameMatch` (ratemyprof-api.ts lines 87-136); a lookup that misses yields `[]` (the source's `|| []`). -/
def nicknameMapFull (w : List Char) : List (List Char) :=
  if w = ['m','i','c','h','a','e','l'] then [['m','i','k','e'], ['m','i','c','k']]
  else if w = ['m','i','k','e'] then [['m','i','c','h','a','e','l']]
  else if w = ['w','i','l','l','i','a','m'] then [['b','i','l','l'], ['w','i','l','l'], ['b','i','l','l','y']]
  else if w = ['b','i','l','l'] then [['w','i','l','l','i','a','m']]
  else if w = ['w','i','l','l'] then [['w','i','l','l','i','a','m']]
  else if w = ['r','o','b','e','r','t'] then [['r','o','b'], ['b','o','b'], ['b','o','b','b','y']]
  else if w = ['r','o','b'] then [['r','o','b','e','r','t']]
  else if w = ['b','o','b'] then [['r','o','b','e','r','t']]
  else if w = ['r','i','c','h','a','r','d'] then [['r','i','c','k'], ['d','i','c','k'], ['r','i','c','h']]
  else if w = ['r','i','c','k'] then [['r','i','c','h','a','r','d']]
  else if w = ['j','a','m','e','s'] then [['j','i','m'], ['j','i','m','m','y']]
  else if w = ['j','i','m'] then [['j','a','m','e','s']]
  else if w = ['j','o','h','n'] then [['j','o','h','n','n','y'], ['j','a','c','k']]
  else if w = ['j','o','h','n','n','y'] then [['j','o','h','n']]
  else if w = ['j','a','c','k'] then [['j','o','h','n']]
  else if w = ['d','a','v','i','d'] then [['d','a','v','e'], ['d','a','v','y']]
  else if w = ['d','a','v','e'] then [['d','a','v','i','d']]
  else if w = ['d','a','n','i','e','l'] then [['d','a','n'], ['d','a','n','n','y']]
  else if w = ['d','a','n'] then [['d','a','n','i','e','l']]
  else if w = ['a','n','t','h','o','n','y'] then [['t','o','n','y']]
  else if w = ['t','o','n','y'] then [['a','n','t','h','o','n','y']]
  else if w = ['c','h','r','i','s','t','o','p','h','e','r'] then [['c','h','r','i','s']]
  else if w = ['c','h','r','i','s'] then [['c','h','r','i','s','t','o','p','h','e','r']]
  else if w = ['m','a','t','t','h','e','w'] then [['m','a','t','t']]
  else if w = ['m','a','t','t'] then [['m','a','t','t','h','e','w']]
  else if w = ['a','n','d','r','e','w'] then [['a','n','d','y'], ['d','r','e','w']]
  else if w = ['a','n','d','y'] then [['a','n','d','r','e','w']]
  else if w = ['d','r','e','w'] then [['a','n','d','r','e','w']]
  else if w = ['j','o','s','e','p','h'] then [['j','o','e'], ['j','o','e','y']]
  else if w = ['j','o','e'] then [['j','o','s','e','p','h']]
  else if w = ['t','h','o','m','a','s'] then [['t','o','m'], ['t','o','m','m','y']]
  else if w = ['t','o','m'] then [['t','h','o','m','a','s']]
  else if w = ['e','l','i','z','a','b','e','t','h'] then [['l','i','z'], ['b','e','t','h'], ['b','e','t','t','y']]
  else if w = ['l','i','z'] then [['e','l','i','z','a','b','e','t','h']]
  else if w = ['b','e','t','h'] then [['e','l','i','z','a','b','e','t','h']]
  else if w = ['j','e','n','n','i','f','e','r'] then [['j','e','n'], ['j','e','n','n','y']]
  else if w = ['j','e','n'] then [['j','e','n','n','i','f','e','r']]
  else if w = ['j','e','s','s','i','c','a'] then [['j','e','s','s'], ['j','e','s','s','i','e']]
  else if w = ['j','e','s','s'] then [['j','e','s','s','i','c','a']]
  else if w = ['c','a','t','h','e','r','i','n','e'] then [['c','a','t','h','y'], ['c','a','t'], ['k','a','t','e']]
  else if w = ['c','a','t','h','y'] then [['c','a','t','h','e','r','i','n','e']]
  else if w = ['k','a','t','e'] then [['c','a','t','h','e','r','i','n','e']]
  else if w = ['m','a','r','g','a','r','e','t'] then [['m','a','g','g','i','e'], ['m','e','g'], ['p','e','g']]
  else if w = ['m','a','g','g','i','e'] then [['m','a','r','g','a','r','e','t']]
  else if w = ['p','a','t','r','i','c','i','a'] then [['p','a','t'], ['p','a','t','t','y'], ['t','r','i','c','i','a']]
  else if w = ['p','a','t'] then [['p','a','t','r','i','c','i','a']]
  else if w = ['s','u','s','a','n'] then [['s','u','e'], ['s','u','s','i','e']]
  else if w = ['s','u','e'] then [['s','u','s','a','n']]
  else []

/-- The smaller nickname table of `generateSearchKeys` (ratemyprof-api.ts lines 258-264). -/
def nicknameMapKeys (w : List Char) : List (List Char) :=
  if w = ['m','i','c','h','a','e','l'] then [['m','i','k','e'], ['m','i','c','k']]
  else if w = ['m','i','k','e'] then [['m','i','c','h','a','e','l']]
  else if w = ['w','i','l','l','i','a','m'] then [['b','i','l','l'], ['w','i','l','l']]
  else if w = ['b','i','l','l'] then [['w','i','l','l','i','a','m']]
  else if w = ['r','o','b','e','r','t'] then [['r','o','b'], ['b','o','b']]
  else if w = ['r','i','c','h','a','r','d'] then [['r','i','c','k'], ['d','i','c','k']]
  else if w = ['j','a','m','e','s'] then [['j','i','m']]
  else if w = ['j','o','h','n'] then [['j','a','c','k']]
  else if w = ['d','a','v','i','d'] then [['d','a','v','e']]
  else if w = ['d','a','n','i','e','l'] then [['d','a','n']]
  else if w = ['a','n','t','h','o','n','y'] then [['t','o','n','y']]
  else if w = ['c','h','r','i','s','t','o','p','h','e','r'] then [['c','h','r','i','s']]
  else if w = ['m','a','t','t','h','e','w'] then [['m','a','t','t']]
  else if w = ['a','n','d','r','e','w'] then [['a','n','d','y']]
  else if w = ['j','o','s','e','p','h'] then [['j','o','e']]
  else if w = ['t','h','o','m','a','s'] then [['t','o','m']]
  else []

/-! ### isNameMatch (ratemyprof-api.ts lines 57-230) -/

/-- `hay.includes(needle)`: contiguous substring containment
(`isSubstr needle hay` = JavaScript `hay.includes(needle)`). -/
def isSubstr (needle : List Char) : List Char → Bool
  | [] => needle.isEmpty
  | c :: cs => List.isPrefixOf needle (c :: cs) || isSubstr needle cs

/-- `x.toLowerCase().trim()` applied to both arguments at the top of
`isNameMatch` (lines 58-59). -/
def lowTrim (x : List Char) : List Char := trimJS (lowerJS x)

/-- `t.split(' ').filter(w => w.length > 1)` (lines 64-65). -/
def wordsOf (x : List Char) : List (List Char) :=
  (splitCharOn ' ' x).filter (fun w => w.length > 1)

/-- `tWords.some(tw => sWords.some(sw => tw === sw || tw.includes(sw) ||
sw.includes(tw)))` (lines 66-68). -/
def hasAnyCommonWord (t s : List Char) : Bool :=
  (wordsOf t).any (fun tw => (wordsOf s).any (fun sw =>
    tw = sw || isSubstr sw tw || isSubstr tw sw))

/-- The "no common words" early rejection (lines 70-75). -/
def commonWordGuardRejects (t s : List Char) : Bool :=
  !hasAnyCommonWord t s && decide (0 < (wordsOf t).length) && decide (0 < (wordsOf s).length)

/-- The substring-containment acceptance shortcut (lines 77-80).
`s.length / t.length > 0.4` is the exact rational `5 * |s| > 2 * |t|`
(see the header note on floating point). -/
def substrAccept (t s : List Char) : Bool :=
  (decide (3 < s.length) && isSubstr s t && decide (2 * t.length < 5 * s.length))
  || (decide (3 < t.length) && isSubstr t s && decide (2 * s.length < 5 * t.length))

/-- `cleanX.split(' ').filter(p => p.length > 0)` over the title-stripped
name (lines 139-146): the token lists `cleanTParts`/`cleanSParts` of the
inner matching loop. -/
def cleanParts (x : List Char) : List (List Char) :=
  (splitCharOn ' ' (stripTitlesWB x)).filter (fun p => 0 < p.length)

/-- One iteration of the inner `for (const tPart of cleanTParts)` loop
(lines 157-214): all the ways a query token `sPart` can correspond to a
candidate token `tPart`, in source order (the `break` only cuts the search
short, it does not change whether some `tPart` matches).
`len/len > 0.5` is the exact rational `2 * |shorter| > |longer|`. -/
def partMatch (sPart tPart : List Char) : Bool :=
  tPart = sPart
  || (decide (2 < sPart.length) && decide (2 < tPart.length) &&
      ((isSubstr sPart tPart && decide (tPart.length < 2 * sPart.length))
       || (isSubstr tPart sPart && decide (sPart.length < 2 * tPart.length))))
  || (sPart.length = 1 && tPart.length = 1 && sPart = tPart)
  || (sPart.length = 1 && decide (1 < tPart.length) && List.isPrefixOf sPart tPart)
  || (tPart.length = 1 && decide (1 < sPart.length) && List.isPrefixOf tPart sPart)
  || ((nicknameMapFull sPart).contains tPart || (nicknameMapFull tPart).contains sPart)
  || (sPart.contains '-' && (splitCharOn '-' sPart).contains tPart)
  || (tPart.contains '-' && (splitCharOn '-' tPart).contains sPart)

/-- `actualMatches` (lines 151-223): the number of query tokens that found
a corresponding candidate token. -/
def actualMatches (tP sP : List (List Char)) : Nat :=
  (sP.filter (fun sp => tP.any (fun tp => partMatch sp tp))).length

/-- `hasFirstNameMatch` (lines 152, 219-221).  The source sets the flag
when a matched `sPart` satisfies `cleanSParts.indexOf(sPart) === 0`;
since `indexOf` compares values, that holds exactly when the FIRST token's
value found a match (a later duplicate of the first token sets the same
flag the first occurrence would have set). -/
def hasFirstNameTokenMatch (tP sP : List (List Char)) : Bool :=
  match sP with
  | [] => false
  | h :: _ => tP.any (fun tp => partMatch h tp)

/-- The final acceptance rule of the token loop (lines 225-229):
`hasFirstNameMatch && actualMatches >= max(2, ceil(0.5 * |cleanSParts|))`;
`Math.ceil(n * 0.5)` is exactly `(n + 1) / 2` in natural division. -/
def tokenAccept (t s : List Char) : Bool :=
  hasFirstNameTokenMatch (cleanParts t) (cleanParts s)
  && decide (max 2 (((cleanParts s).length + 1) / 2) ≤ actualMatches (cleanParts t) (cleanParts s))

/-- The body of `isNameMatch` after the initial `toLowerCase().trim()` of
both arguments (`t` and `s` in the source), with its early returns rendered
as a cascade: exact equality (line 61); the no-common-word rejection
(lines 70-75); the substring shortcut (lines 79-80); equality after title
cleaning (line 143); the token-overlap rule (lines 151-229). -/
def isNameMatchOn (t s : List Char) : Bool :=
  if t = s then true
  else if commonWordGuardRejects t s then false
  else if substrAccept t s then true
  else if stripTitlesWB t = stripTitlesWB s then true
  else tokenAccept t s

/-- `RateMyProfAPI.isNameMatch(teacherName, searchName)`
(ratemyprof-api.ts lines 57-230). -/
def isNameMatch (teacherName searchName : List Char) : Bool :=
  isNameMatchOn (lowTrim teacherName) (lowTrim searchName)

/-! ### generateSearchKeys and the search index (ratemyprof-api.ts 232-367) -/

/-- An insertion into a JavaScript `Set` rendered on ordered lists:
append unless already present. -/
def insertUniq {α : Type} [DecidableEq α] (l : List α) (x : α) : List α :=
  if x ∈ l then l else l ++ [x]

/-- `name.toLowerCase().trim().replace(/\b(...)\b\.?\s*/gi, '')`
(line 234). -/
def cleanKeyName (name : List Char) : List Char :=
  stripTitlesWB (trimJS (lowerJS name))

/-- `cleanName.split(/\s+/).filter(w => w.length > 1)` (line 240). -/
def gskWords (name : List Char) : List (List Char) :=
  (splitRuns jsIsSpace (cleanKeyName name)).filter (fun w => 1 < w.length)

/-- `RateMyProfAPI.generateSearchKeys` (ratemyprof-api.ts lines 232-273):
full cleaned name, individual words, first+last combination, hyphen parts,
nickname variants — in insertion order.  Note there is NO first-initial
key here (unlike `generateSearchNames` below). -/
def generateSearchKeys (name : List Char) : List (List Char) :=
  let cleanName := cleanKeyName name
  let words := gskWords name
  let k1 := insertUniq [] cleanName
  let k2 := words.foldl insertUniq k1
  let k3 :=
    if 2 ≤ words.length then
      insertUniq k2 (words.headD [] ++ ' ' :: words.getLastD [])
    else k2
  let k4 := words.foldl (fun acc w =>
    if w.contains '-' then
      ((splitCharOn '-' w).filter (fun p => 1 < p.length)).foldl insertUniq acc
    else acc) k3
  words.foldl (fun acc w => (nicknameMapKeys w).foldl insertUniq acc) k4

/-- A professor record as consumed by the index and matcher: the matcher
reads only `name`; `num_ratings` is the metadata field that
`searchProfessor` consults after matching. -/
structure Prof where
  name : List Char
  num_ratings : Nat
deriving DecidableEq, Repr

/-- The index-narrowing step of `searchProfessor` (lines 340-353): the
index maps each key to the professors generating that key (in list order),
and the query's keys are looked up in order, accumulating candidates into
a `Set` (deduplicated by object identity — modelled by list positions). -/
def narrowedIdx (query : List Char) (names : List (List Char)) : List Nat :=
  (generateSearchKeys query).foldl
    (fun acc key =>
      ((List.range names.length).filter
        (fun i => (generateSearchKeys (names.getD i [])).contains key)).foldl insertUniq acc)
    []

/-- The detailed-matching loop of `searchProfessor` (lines 359-367): the
first candidate of the narrowed set accepted by `isNameMatch` wins. -/
def nameSelect (query : List Char) (names : List (List Char)) : Option Nat :=
  (narrowedIdx query names).find? (fun i => isNameMatch (names.getD i []) query)

/-- `searchProfessor`'s selected candidate position; it is a function of
the candidate names alone. -/
def searchMatchPos (query : List Char) (profs : List Prof) : Option Nat :=
  nameSelect query (profs.map (fun p => p.name))

/-- The spec's index-free baseline: run `isNameMatch` over the full
candidate list in order and take the first accepted candidate. -/
def bruteMatchPos (query : List Char) (names : List (List Char)) : Option Nat :=
  (List.range names.length).find? (fun i => isNameMatch (names.getD i []) query)

/-- `RateMyProfAPI.searchProfessor` (ratemyprof-api.ts lines 324-372) up to
its match decision: the narrowed first match, then
`if (!matchingProf || matchingProf.num_ratings === 0) return null`
(lines 369-372).  The network enrichment that follows is outside the
matching component. -/
def searchProfessor (query : List Char) (profs : List Prof) : Option Prof :=
  match searchMatchPos query profs with
  | none => none
  | some i =>
    match (profs.drop i).head? with
    | none => none
    | some p => if p.num_ratings = 0 then none else some p

/-! ### generateSearchNames (professor-name-utils.ts lines 30-57) -/

/-- `normalized.split(/[\s-]+/).filter(p => p.length > 0)` (line 32). -/
def searchNameParts (fullName : List Char) : List (List Char) :=
  (splitRuns (fun c => jsIsSpace c || c = '-') (normalizeName fullName)).filter
    (fun p => 0 < p.length)

/-- The first-initial key `` `${parts[0][0]} ${parts[parts.length - 1]}` ``
(line 53). -/
def firstInitialKey (fullName : List Char) : List Char :=
  ((searchNameParts fullName).headD []).take 1 ++ ' ' :: (searchNameParts fullName).getLastD []

/-- `generateSearchNames` steps 1-2 (professor-name-utils.ts lines 36-44):
the normalized full name, then every part of length > 1, in insertion
order. -/
def searchNamesTokens (fullName : List Char) : List (List Char) :=
  (searchNameParts fullName).foldl
    (fun acc p => if 1 < p.length then insertUniq acc p else acc)
    (insertUniq [] (normalizeName fullName))

/-- `generateSearchNames` step 3 (lines 46-49): the first+last
combination when there are at least two parts. -/
def searchNamesBase (fullName : List Char) : List (List Char) :=
  if 2 ≤ (searchNameParts fullName).length then
    insertUniq (searchNamesTokens fullName)
      ((searchNameParts fullName).headD [] ++ ' ' :: (searchNameParts fullName).getLastD [])
  else searchNamesTokens fullName

/-- `generateSearchNames` (professor-name-utils.ts lines 30-57): normalized
full name, parts of length > 1, first+last, first-initial+last — in
insertion order (step 4, lines 51-54, adds the first-initial key). -/
def generateSearchNames (fullName : List Char) : List (List Char) :=
  if 2 ≤ (searchNameParts fullName).length then
    insertUniq (searchNamesBase fullName) (firstInitialKey fullName)
  else searchNamesBase fullName

/-! ### ProfessorService.fetchProfessorFromRmp (professor-service.ts 158-274) -/

/-- An RMP teacher node as used by the scorer: the two name fields and the
`numRatings` metadata consulted by the sort tie-break. -/
structure RmpNode where
  firstName : List Char
  lastName : List Char
  numRatings : Nat
deriving DecidableEq, Repr

/-- `` `${node.firstName ?? ''} ${node.lastName ?? ''}`.trim() ``
(professor-service.ts lines 237-239). -/
def buildFullName (node : RmpNode) : List Char :=
  trimJS (node.firstName ++ ' ' :: node.lastName)

/-- `x.split(' ').filter(Boolean)` (lines 252-253). -/
def partsB (x : List Char) : List (List Char) :=
  (splitCharOn ' ' x).filter (fun p => p ≠ [])

/-- The `score += 2` bonus of `scoreCandidate` for equal first tokens
(professor-service.ts lines 264-268); the truthiness guards are the
`head?` cases (a filtered part list has no empty strings). -/
def firstNameBonus (targetParts candidateParts : List (List Char)) : Nat :=
  match targetParts.head?, candidateParts.head? with
  | some tf, some cf => if tf = cf then 2 else 0
  | _, _ => 0

/-- `ProfessorService.scoreCandidate` (professor-service.ts lines 246-274):
0 for an empty normalized candidate name or on last-token mismatch,
otherwise 3, plus 2 for an equal first token, plus the token overlap.
(The source binds the repeated subterms to locals; they are pure, so the
inlining is value-identical.) -/
def scoreCandidate (node : RmpNode) (normalizedTarget : List Char) : Nat :=
  if normalizeName (buildFullName node) = [] then 0
  else
    match (partsB normalizedTarget).getLast?,
        (partsB (normalizeName (buildFullName node))).getLast? with
    | some tl, some cl =>
      if tl ≠ cl then 0
      else
        3 + firstNameBonus (partsB normalizedTarget) (partsB (normalizeName (buildFullName node)))
          + ((partsB (normalizeName (buildFullName node))).filter
              (fun p => (partsB normalizedTarget).contains p)).length
    | _, _ => 0

/-- The comparator `(a, b) => b.score - a.score || b.numRatings - a.numRatings`
(lines 208-213) as the induced "a sorts no later than b" relation. -/
def scoreLe (a b : RmpNode × Nat) : Bool :=
  decide (b.2 < a.2) || (decide (a.2 = b.2) && decide (b.1.numRatings ≤ a.1.numRatings))

/-- Stable insertion used to model `Array.prototype.sort` (stable since
ES2019): a later element is inserted after every earlier element that
sorts no later than it. -/
def insertScored (x : RmpNode × Nat) : List (RmpNode × Nat) → List (RmpNode × Nat)
  | [] => [x]
  | y :: ys => if scoreLe y x then y :: insertScored x ys else x :: y :: ys

/-- `scoredCandidates.sort(...)` as a stable sort by `scoreLe`. -/
def sortScored (l : List (RmpNode × Nat)) : List (RmpNode × Nat) :=
  l.foldl (fun acc x => insertScored x acc) []

/-- `edges.map(scoreCandidate).filter(score > 0)` (professor-service.ts
lines 200-202), against the normalized query name. -/
def scoredOf (edges : List RmpNode) (name : List Char) : List (RmpNode × Nat) :=
  (edges.map (fun e => (e, scoreCandidate e (normalizeName name)))).filter
    (fun p => 0 < p.2)

/-- The candidate-selection core of `ProfessorService.fetchProfessorFromRmp`
(professor-service.ts lines 194-215): score every edge against the
normalized query, keep the positive scores, sort by score then
`numRatings` (both descending), return the best node — `null` when no edges
or no positive score. -/
def fetchProfessorFromRmp (edges : List RmpNode) (name : List Char) : Option RmpNode :=
  if edges.isEmpty then none
  else if (scoredOf edges name).isEmpty then none
  else
    match sortScored (scoredOf edges name) with
    | [] => none
    | p :: _ => some p.1

/-! ## Helper lemmas -/

theorem mem_insertUniq_self {α : Type} [DecidableEq α] (l : List α) (x : α) :
    x ∈ insertUniq l x := by
  unfold insertUniq
  split
  · assumption
  · simp

theorem mem_insertUniq_of_mem {α : Type} [DecidableEq α] {l : List α} {y : α} (x : α)
    (h : y ∈ l) : y ∈ insertUniq l x := by
  unfold insertUniq
  split
  · exact h
  · simp [h]

theorem mem_of_mem_insertUniq {α : Type} [DecidableEq α] {l : List α} {x y : α}
    (h : y ∈ insertUniq l x) : y ∈ l ∨ y = x := by
  unfold insertUniq at h
  split at h
  · exact .inl h
  · simpa using h

/-- A property holding on an accumulator and on a pushed list survives a
`foldl insertUniq`. -/
theorem foldl_insertUniq_pred {α : Type} [DecidableEq α] (P : α → Prop) :
    ∀ (l : List α) (acc : List α), (∀ y ∈ acc, P y) → (∀ y ∈ l, P y) →
      ∀ y ∈ l.foldl insertUniq acc, P y := by
  intro l
  induction l with
  | nil => intro acc ha _ y hy; exact ha y hy
  | cons a as ih =>
    intro acc ha hl y hy
    refine ih (insertUniq acc a) ?_ (fun z hz => hl z (by simp [hz])) y hy
    intro z hz
    rcases mem_of_mem_insertUniq hz with h | rfl
    · exact ha z h
    · exact hl z (by simp)

theorem mem_foldl_insertUniq_of_mem_acc {α : Type} [DecidableEq α] :
    ∀ (l acc : List α) (y : α), y ∈ acc → y ∈ l.foldl insertUniq acc := by
  intro l
  induction l with
  | nil => intro acc y h; exact h
  | cons a as ih => intro acc y h; exact ih _ y (mem_insertUniq_of_mem a h)

theorem map_id_of_fix {α : Type} {f : α → α} :
    ∀ {l : List α}, (∀ c ∈ l, f c = c) → l.map f = l := by
  intro l
  induction l with
  | nil => intro _; rfl
  | cons a as ih =>
    intro h
    simp only [List.map_cons, h a (by simp), ih (fun c hc => h c (by simp [hc]))]

theorem mem_trimJS {c : Char} {l : List Char} (h : c ∈ trimJS l) : c ∈ l := by
  unfold trimJS at h
  rw [List.mem_reverse] at h
  have h1 := List.dropWhile_subset jsIsSpace h
  rw [List.mem_reverse] at h1
  exact List.dropWhile_subset jsIsSpace h1

theorem dropWhile_dropWhile (p : Char → Bool) :
    ∀ l : List Char, (l.dropWhile p).dropWhile p = l.dropWhile p := by
  intro l
  induction l with
  | nil => rfl
  | cons a as ih =>
    by_cases h : p a
    · simpa [List.dropWhile_cons, h] using ih
    · simp [List.dropWhile_cons, h]

theorem dropWhile_eq_self_of_head {p : Char → Bool} {m : List Char}
    (h : ∀ a, m.head? = some a → p a = false) : m.dropWhile p = m := by
  cases m with
  | nil => rfl
  | cons a as => simp [List.dropWhile_cons, h a rfl]

theorem head_false_of_dropWhile_fix {p : Char → Bool} {m : List Char}
    (hfix : m.dropWhile p = m) {a : Char} (ha : m.head? = some a) : p a = false := by
  have := List.head?_dropWhile_not p m
  rw [hfix, ha] at this
  simpa using this

/-- Removing a trailing run (via reverse/dropWhile/reverse) yields a prefix. -/
theorem trimTail_prefix (p : Char → Bool) (m : List Char) :
    (m.reverse.dropWhile p).reverse <+: m := by
  rw [← List.reverse_suffix]
  simpa using List.dropWhile_suffix (l := m.reverse) p

theorem head?_of_prefix {m1 m2 : List Char} (h : m1 <+: m2) (hne : m1 ≠ []) :
    m2.head? = m1.head? := by
  obtain ⟨r, rfl⟩ := h
  cases m1 with
  | nil => exact absurd rfl hne
  | cons a as => rfl

theorem trimJS_idem (l : List Char) : trimJS (trimJS l) = trimJS l := by
  unfold trimJS
  have hfix : (l.dropWhile jsIsSpace).dropWhile jsIsSpace = l.dropWhile jsIsSpace :=
    dropWhile_dropWhile _ _
  have h1 : (((l.dropWhile jsIsSpace).reverse.dropWhile jsIsSpace).reverse).dropWhile jsIsSpace
      = ((l.dropWhile jsIsSpace).reverse.dropWhile jsIsSpace).reverse := by
    apply dropWhile_eq_self_of_head
    intro a ha
    have hpre := trimTail_prefix jsIsSpace (l.dropWhile jsIsSpace)
    have hne : ((l.dropWhile jsIsSpace).reverse.dropWhile jsIsSpace).reverse ≠ [] := by
      intro h0
      rw [h0] at ha
      cases ha
    have hh := head?_of_prefix hpre hne
    rw [ha] at hh
    exact head_false_of_dropWhile_fix hfix hh
  rw [h1, List.reverse_reverse, dropWhile_dropWhile]

theorem trimJS_normalizeName (x : List Char) :
    trimJS (normalizeName x) = normalizeName x := by
  unfold normalizeName
  exact trimJS_idem _

theorem keepChar_of_mem_normalizeName {c : Char} {x : List Char}
    (h : c ∈ normalizeName x) : keepChar c = true := by
  unfold normalizeName at h
  exact List.of_mem_filter (mem_trimJS h)

theorem jsToLower_fix_of_keep {c : Char} (h : keepChar c = true) : jsToLower c = c := by
  unfold jsToLower
  rw [if_neg]
  intro ⟨h1, h2⟩
  unfold keepChar jsIsSpace at h
  simp only [Bool.or_eq_true, Bool.and_eq_true, decide_eq_true_eq] at h
  rcases h with ⟨ha, _⟩ | hsp
  · have m1 : (97 : Nat) ≤ c.toNat := ha
    have m2 : c.toNat ≤ 90 := h2
    omega
  · rcases hsp with ((((rfl | rfl) | rfl) | rfl) | rfl) | rfl <;> exact absurd h1 (by decide)

theorem lowerJS_normalizeName (x : List Char) :
    lowerJS (normalizeName x) = normalizeName x :=
  map_id_of_fix (fun c hc => jsToLower_fix_of_keep (keepChar_of_mem_normalizeName hc))

theorem filter_keep_normalizeName (x : List Char) :
    (normalizeName x).filter keepChar = normalizeName x :=
  List.filter_eq_self.mpr (fun _ hc => keepChar_of_mem_normalizeName hc)

/-! ## Claim theorems -/

/-- C5 (amended): `normalizeName` removes a title string wherever a word
boundary precedes it, with first-alternative preference and WITHOUT
requiring a word boundary after it: titled names like "Dr. Jane Doe" do
normalize to "jane doe", but a word merely beginning with a title is
partially eaten ("Drake" becomes "ake", "Professor" loses only "prof" and
becomes "essor").  The whole-word discipline claimed by the spec holds only
for the other regex (`stripTitlesWB`, used by `isNameMatch` and
`generateSearchKeys`), which leaves "drake" intact and removes "professor"
entirely. -/
theorem normalizeName_title_strip_examples :
    normalizeName ['D','r','.',' ','J','a','n','e',' ','D','o','e'] = ['j','a','n','e',' ','d','o','e']
    ∧ normalizeName ['J','a','n','e',' ','D','o','e'] = ['j','a','n','e',' ','d','o','e']
    ∧ normalizeName ['D','r','a','k','e'] = ['a','k','e']
    ∧ normalizeName ['P','r','o','f','e','s','s','o','r',' ','S','m','i','t','h']
        = ['e','s','s','o','r',' ','s','m','i','t','h']
    ∧ stripTitlesWB ['d','r','a','k','e'] = ['d','r','a','k','e']
    ∧ stripTitlesWB ['p','r','o','f','e','s','s','o','r',' ','s','m','i','t','h']
        = ['s','m','i','t','h'] := by
  decide

/-- C5 counterexample: the claim "a word that merely begins with a title is
not partially removed" fails on `normalizeName`: "Drake" is mangled to
"ake" (its regex lacks the trailing `\b` that the `isNameMatch` regex has). -/
theorem normalizeName_partial_word_strip_cex :
    normalizeName ['D','r','a','k','e'] ≠
      lowerJS ['D','r','a','k','e'] := by
  decide

/-- C7 (amended): normalization is idempotent exactly on the strings whose
normal form contains no further title occurrence: if the title-stripping
pass of `normalizeName` leaves `normalizeName x` unchanged, then
`normalizeName (normalizeName x) = normalizeName x`.  (Unconditional
idempotence fails, see the counterexample: stripping can uncover a fresh
title, e.g. "drdr" → "dr" → "".) -/
theorem normalizeName_conditionally_idempotent (x : List Char)
    (h : stripTitlesNB (normalizeName x) = normalizeName x) :
    normalizeName (normalizeName x) = normalizeName x := by
  conv_lhs => rw [normalizeName]
  rw [lowerJS_normalizeName, h, filter_keep_normalizeName, trimJS_normalizeName]

theorem normalizeName_conditionally_idempotent_witness :
    stripTitlesNB (normalizeName ['J','a','n','e',' ','D','o','e'])
        = normalizeName ['J','a','n','e',' ','D','o','e']
    ∧ normalizeName (normalizeName ['J','a','n','e',' ','D','o','e'])
        = normalizeName ['J','a','n','e',' ','D','o','e'] :=
  ⟨by decide, normalizeName_conditionally_idempotent _ (by decide)⟩

/-- C7 counterexample: normalization is NOT idempotent on all strings:
`normalizeName "drdr" = "dr"` (the scan resumes inside the word after
removing the first "dr", so no second match is found), but normalizing
again gives `""`. -/
theorem normalizeName_not_idempotent_cex :
    normalizeName (normalizeName ['d','r','d','r']) ≠ normalizeName ['d','r','d','r'] := by
  decide

theorem actualMatches_le (tP sP : List (List Char)) : actualMatches tP sP ≤ sP.length :=
  List.length_filter_le _ _

/-- C10 (amended): `normalizeName`, `generateSearchKeys` and the matcher
are total functions (the embedding is executable everywhere, so nothing
throws), and a query that trims to the empty string is rejected against
every candidate whose title-cleaned name is nonempty.  (But malformed
queries are NOT universally rejected — the matcher compares raw lowercased
names, not normalized ones; see the counterexample.) -/
theorem malformed_query_behavior :
    normalizeName [] = []
    ∧ generateSearchKeys [] = [[]]
    ∧ ∀ t : List Char, stripTitlesWB (lowTrim t) ≠ [] → isNameMatch t [] = false := by
  refine ⟨rfl, by decide, ?_⟩
  intro t h
  unfold isNameMatch isNameMatchOn
  have hs : lowTrim ([] : List Char) = [] := rfl
  rw [hs]
  have e1 : lowTrim t ≠ [] := by
    intro e
    apply h
    rw [e]
    rfl
  rw [if_neg e1]
  have e2 : commonWordGuardRejects (lowTrim t) [] = false := by
    unfold commonWordGuardRejects
    have hw : wordsOf [] = [] := rfl
    rw [hw]
    simp
  rw [if_neg (by simp [e2])]
  have e3 : substrAccept (lowTrim t) [] = false := by
    unfold substrAccept
    have hsub : isSubstr (lowTrim t) [] = false := by
      obtain ⟨c, cs, hcc⟩ := List.exists_cons_of_ne_nil e1
      rw [hcc]
      rfl
    simp [hsub]
  rw [if_neg (by simp [e3])]
  have e4 : ¬ (stripTitlesWB (lowTrim t) = stripTitlesWB []) := by
    intro e
    exact h (e.trans rfl)
  rw [if_neg e4]
  unfold tokenAccept
  have e5 : cleanParts ([] : List Char) = [] := rfl
  rw [e5]
  simp [hasFirstNameTokenMatch]

theorem malformed_query_behavior_witness :
    stripTitlesWB (lowTrim ['j','o','h','n',' ','s','m','i','t','h']) ≠ []
    ∧ isNameMatch ['j','o','h','n',' ','s','m','i','t','h'] [] = false :=
  ⟨by decide, malformed_query_behavior.2.2 ['j','o','h','n',' ','s','m','i','t','h'] (by decide)⟩

/-- C10 counterexample: a malformed query (no alphabetic tokens:
`normalizeName "123" = ""`) still produces `matched: true` against a
candidate with the same raw name — `isNameMatch` compares the raw
lowercased strings, never the normalized ones, so its first branch
(`t === s`) accepts. -/
theorem malformed_query_can_match_cex :
    normalizeName ['1','2','3'] = []
    ∧ isNameMatch ['1','2','3'] ['1','2','3'] = true := by
  decide

/-- C8 (amended): a single-token query (one token after title cleaning)
can never be accepted through the token-overlap rule — its match count is
at most 1 while the required minimum is 2 — so any accepted single-token
query went through one of the three shortcut routes: raw equality,
substring containment, or cleaned-name equality.  (The claim's "always
rejected" is false: the shortcuts do fire, see the counterexample.) -/
theorem single_token_query_only_shortcuts (t s : List Char)
    (h1 : (cleanParts (lowTrim s)).length = 1)
    (h2 : isNameMatch t s = true) :
    lowTrim t = lowTrim s ∨ substrAccept (lowTrim t) (lowTrim s) = true
      ∨ stripTitlesWB (lowTrim t) = stripTitlesWB (lowTrim s) := by
  unfold isNameMatch isNameMatchOn at h2
  by_cases e1 : lowTrim t = lowTrim s
  · exact .inl e1
  rw [if_neg e1] at h2
  by_cases e2 : commonWordGuardRejects (lowTrim t) (lowTrim s) = true
  · rw [if_pos e2] at h2
    cases h2
  rw [if_neg e2] at h2
  by_cases e3 : substrAccept (lowTrim t) (lowTrim s) = true
  · exact .inr (.inl e3)
  rw [if_neg e3] at h2
  by_cases e4 : stripTitlesWB (lowTrim t) = stripTitlesWB (lowTrim s)
  · exact .inr (.inr e4)
  rw [if_neg e4] at h2
  exfalso
  unfold tokenAccept at h2
  simp only [Bool.and_eq_true, decide_eq_true_eq] at h2
  have hle := actualMatches_le (cleanParts (lowTrim t)) (cleanParts (lowTrim s))
  rw [h1] at hle h2
  have h22 := h2.2
  norm_num at h22
  omega

theorem single_token_query_only_shortcuts_witness :
    (cleanParts (lowTrim ['s','m','i','t','h'])).length = 1
    ∧ isNameMatch ['s','m','i','t','h','s','o','n'] ['s','m','i','t','h'] = true
    ∧ (lowTrim ['s','m','i','t','h','s','o','n'] = lowTrim ['s','m','i','t','h']
       ∨ substrAccept (lowTrim ['s','m','i','t','h','s','o','n']) (lowTrim ['s','m','i','t','h']) = true
       ∨ stripTitlesWB (lowTrim ['s','m','i','t','h','s','o','n'])
           = stripTitlesWB (lowTrim ['s','m','i','t','h'])) :=
  ⟨by decide, by decide,
   single_token_query_only_shortcuts ['s','m','i','t','h','s','o','n'] ['s','m','i','t','h']
     (by decide) (by decide)⟩

/-- C8 counterexample: the single-token query "smith" against the
candidate "smithson" is ACCEPTED (substring shortcut: "smith" is contained
in "smithson" and 5/8 > 0.4), refuting "single-token queries can never
satisfy the acceptance rule ... the matcher returns no-match". -/
theorem single_token_query_matches_cex :
    isNameMatch ['s','m','i','t','h','s','o','n'] ['s','m','i','t','h'] = true
    ∧ (cleanParts (lowTrim ['s','m','i','t','h'])).length = 1
    ∧ lowTrim ['s','m','i','t','h','s','o','n'] ≠ lowTrim ['s','m','i','t','h'] := by
  decide

/-- C3 (amended): for names whose cleaned forms differ, acceptance is
characterized by: the common-word guard does not reject, AND (the
substring-containment shortcut fires OR the token rule — first-name match
plus the `max(2, ceil(0.5 n))` threshold — holds).  The claim's
"no candidate is accepted by any other route" is false: the substring
shortcut accepts candidates that fail the token rule (see counterexample). -/
theorem acceptance_route_characterization (t s : List Char)
    (h : stripTitlesWB (lowTrim t) ≠ stripTitlesWB (lowTrim s)) :
    isNameMatch t s = true ↔
      (commonWordGuardRejects (lowTrim t) (lowTrim s) = false
       ∧ (substrAccept (lowTrim t) (lowTrim s) = true
          ∨ tokenAccept (lowTrim t) (lowTrim s) = true)) := by
  unfold isNameMatch isNameMatchOn
  have e1 : lowTrim t ≠ lowTrim s := fun e => h (by rw [e])
  rw [if_neg e1]
  by_cases e2 : commonWordGuardRejects (lowTrim t) (lowTrim s) = true
  · rw [if_pos e2]
    simp [e2]
  · rw [if_neg e2]
    rw [Bool.not_eq_true] at e2
    by_cases e3 : substrAccept (lowTrim t) (lowTrim s) = true
    · rw [if_pos e3]
      simp [e2, e3]
    · rw [if_neg e3, if_neg h]
      simp [e2, e3]

theorem acceptance_route_characterization_witness :
    stripTitlesWB (lowTrim ['j','o','h','n',' ','s','m','i','t','h'])
        ≠ stripTitlesWB (lowTrim ['h','n',' ','s','m'])
    ∧ (isNameMatch ['j','o','h','n',' ','s','m','i','t','h'] ['h','n',' ','s','m'] = true ↔
        (commonWordGuardRejects (lowTrim ['j','o','h','n',' ','s','m','i','t','h'])
            (lowTrim ['h','n',' ','s','m']) = false
         ∧ (substrAccept (lowTrim ['j','o','h','n',' ','s','m','i','t','h'])
              (lowTrim ['h','n',' ','s','m']) = true
            ∨ tokenAccept (lowTrim ['j','o','h','n',' ','s','m','i','t','h'])
                (lowTrim ['h','n',' ','s','m']) = true))) :=
  ⟨by decide,
   acceptance_route_characterization ['j','o','h','n',' ','s','m','i','t','h']
     ['h','n',' ','s','m'] (by decide)⟩

/-- C3 counterexample: the query "hn sm" is accepted against the candidate
"john smith" by the substring shortcut ("hn sm" occurs inside "john smith"
and 5/10 > 0.4), even though the token rule fails outright: no token of
"hn sm" corresponds to any candidate token, so `hasFirstNameMatch` is
false.  The candidate is accepted by a route other than the claimed one. -/
theorem substring_route_bypasses_token_rule_cex :
    isNameMatch ['j','o','h','n',' ','s','m','i','t','h'] ['h','n',' ','s','m'] = true
    ∧ tokenAccept (lowTrim ['j','o','h','n',' ','s','m','i','t','h'])
        (lowTrim ['h','n',' ','s','m']) = false
    ∧ hasFirstNameTokenMatch (cleanParts (lowTrim ['j','o','h','n',' ','s','m','i','t','h']))
        (cleanParts (lowTrim ['h','n',' ','s','m'])) = false
    ∧ stripTitlesWB (lowTrim ['j','o','h','n',' ','s','m','i','t','h'])
        ≠ stripTitlesWB (lowTrim ['h','n',' ','s','m']) := by
  decide

theorem narrowedIdx_lt (query : List Char) (names : List (List Char)) :
    ∀ i ∈ narrowedIdx query names, i < names.length := by
  unfold narrowedIdx
  have key : ∀ (ks : List (List Char)) (acc : List Nat),
      (∀ i ∈ acc, i < names.length) →
      ∀ i ∈ ks.foldl (fun acc key => ((List.range names.length).filter
          (fun i => (generateSearchKeys (names.getD i [])).contains key)).foldl insertUniq acc)
          acc,
        i < names.length := by
    intro ks
    induction ks with
    | nil => intro acc ha i hi; exact ha i hi
    | cons k kt ih =>
      intro acc ha i hi
      simp only [List.foldl_cons] at hi
      refine ih _ ?_ i hi
      intro j hj
      refine foldl_insertUniq_pred _ _ _ ha ?_ j hj
      intro z hz
      exact List.mem_range.mp (List.mem_filter.mp hz).1
  exact key _ [] (by simp)

/-- C1 (amended): the index narrowing can only LOSE matches, never invent
them: whenever the narrowed scan finds a match, the full-list scan also
finds one.  The claimed equivalence fails in the other direction — a
candidate can be accepted by `isNameMatch` while sharing no search key with
the query (the substring shortcut compares raw characters, not keys), in
which case the index returns no-match but the full scan matches (see the
counterexample). -/
theorem narrowed_match_implies_full_match (query : List Char) (profs : List Prof)
    (h : (searchMatchPos query profs).isSome = true) :
    (bruteMatchPos query (profs.map (fun p => p.name))).isSome = true := by
  unfold searchMatchPos nameSelect at h
  rw [Option.isSome_iff_exists] at h
  obtain ⟨i, hi⟩ := h
  have hmem := List.mem_of_find?_eq_some hi
  have hpred := List.find?_some hi
  have hlt := narrowedIdx_lt query _ i hmem
  unfold bruteMatchPos
  rw [List.find?_isSome]
  exact ⟨i, List.mem_range.mpr hlt, hpred⟩

theorem narrowed_match_implies_full_match_witness :
    (searchMatchPos ['j','o','h','n',' ','s','m','i','t','h']
        [⟨['j','o','h','n',' ','s','m','i','t','h'], 1⟩]).isSome = true
    ∧ (bruteMatchPos ['j','o','h','n',' ','s','m','i','t','h']
        (([⟨['j','o','h','n',' ','s','m','i','t','h'], 1⟩] : List Prof).map
          (fun p => p.name))).isSome = true :=
  ⟨by decide,
   narrowed_match_implies_full_match ['j','o','h','n',' ','s','m','i','t','h']
     [⟨['j','o','h','n',' ','s','m','i','t','h'], 1⟩] (by decide)⟩

/-- C1 counterexample: for the query "hn sm" and the single candidate
"john smith", the detailed matcher accepts (substring shortcut: "hn sm"
occurs contiguously inside "john smith" and 5/10 > 0.4), but the query's
search keys {"hn sm", "hn", "sm"} share no entry with the candidate's
{"john smith", "john", "smith", "jack"}, so the index-narrowed subset is
empty and the indexed matcher rejects: the narrowing changes the
accept/reject decision. -/
theorem index_narrowing_changes_decision_cex :
    (searchMatchPos ['h','n',' ','s','m']
        [⟨['j','o','h','n',' ','s','m','i','t','h'], 1⟩]).isSome = false
    ∧ (bruteMatchPos ['h','n',' ','s','m']
        [['j','o','h','n',' ','s','m','i','t','h']]).isSome = true
    ∧ isNameMatch ['j','o','h','n',' ','s','m','i','t','h'] ['h','n',' ','s','m'] = true := by
  decide

/-- C9 (amended): the candidate-selection stage of `searchProfessor`
(index narrowing plus the `isNameMatch` loop) depends only on candidate
names — two candidate lists with the same names select the same position —
and a returned candidate is an element of the input list (passed through).
But the claim's "the matcher returns the same accept/reject decision" is
false for the end-to-end function: `searchProfessor` additionally rejects
when the selected candidate's `num_ratings` metadata is 0 (and
`fetchProfessorFromRmp` tie-breaks on `numRatings`), so metadata does
influence the final decision (see the counterexample). -/
theorem match_position_ignores_metadata (query : List Char) (l1 l2 : List Prof)
    (h : l1.map (fun p => p.name) = l2.map (fun p => p.name)) :
    searchMatchPos query l1 = searchMatchPos query l2
    ∧ ∀ p : Prof, searchProfessor query l1 = some p → p ∈ l1 := by
  constructor
  · unfold searchMatchPos
    rw [h]
  · intro p hp
    unfold searchProfessor at hp
    split at hp
    · cases hp
    · rename_i i hm
      split at hp
      · cases hp
      · rename_i q hd
        by_cases hz : q.num_ratings = 0
        · rw [if_pos hz] at hp
          cases hp
        · rw [if_neg hz] at hp
          injection hp with hpq
          subst hpq
          have hqmem : q ∈ l1.drop i := by
            cases hdrop : l1.drop i with
            | nil =>
              rw [hdrop] at hd
              cases hd
            | cons a tl =>
              rw [hdrop] at hd
              simp only [List.head?_cons, Option.some.injEq] at hd
              subst hd
              exact List.mem_cons_self _ _
          exact List.drop_subset i l1 hqmem

theorem match_position_ignores_metadata_witness :
    ([⟨['j','o','h','n',' ','s','m','i','t','h'], 1⟩] : List Prof).map (fun p => p.name)
      = ([⟨['j','o','h','n',' ','s','m','i','t','h'], 7⟩] : List Prof).map (fun p => p.name)
    ∧ searchMatchPos ['j','o','h','n',' ','s','m','i','t','h']
        [⟨['j','o','h','n',' ','s','m','i','t','h'], 1⟩]
      = searchMatchPos ['j','o','h','n',' ','s','m','i','t','h']
        [⟨['j','o','h','n',' ','s','m','i','t','h'], 7⟩]
    ∧ ∀ p : Prof, searchProfessor ['j','o','h','n',' ','s','m','i','t','h']
        [⟨['j','o','h','n',' ','s','m','i','t','h'], 1⟩] = some p →
          p ∈ ([⟨['j','o','h','n',' ','s','m','i','t','h'], 1⟩] : List Prof) :=
  ⟨by decide,
   (match_position_ignores_metadata ['j','o','h','n',' ','s','m','i','t','h']
      [⟨['j','o','h','n',' ','s','m','i','t','h'], 1⟩]
      [⟨['j','o','h','n',' ','s','m','i','t','h'], 7⟩] (by decide)).1,
   (match_position_ignores_metadata ['j','o','h','n',' ','s','m','i','t','h']
      [⟨['j','o','h','n',' ','s','m','i','t','h'], 1⟩]
      [⟨['j','o','h','n',' ','s','m','i','t','h'], 7⟩] (by decide)).2⟩

/-- C9 counterexample: two candidate lists identical except for the
`num_ratings` metadata produce different accept/reject decisions: with
`num_ratings = 1` the professor "john smith" is returned, with
`num_ratings = 0` the same matched professor is rejected by the
`matchingProf.num_ratings === 0` check (ratemyprof-api.ts lines 369-372). -/
theorem metadata_flips_decision_cex :
    ([⟨['j','o','h','n',' ','s','m','i','t','h'], 1⟩] : List Prof).map (fun p => p.name)
      = ([⟨['j','o','h','n',' ','s','m','i','t','h'], 0⟩] : List Prof).map (fun p => p.name)
    ∧ (searchProfessor ['j','o','h','n',' ','s','m','i','t','h']
        [⟨['j','o','h','n',' ','s','m','i','t','h'], 1⟩]).isSome = true
    ∧ (searchProfessor ['j','o','h','n',' ','s','m','i','t','h']
        [⟨['j','o','h','n',' ','s','m','i','t','h'], 0⟩]).isSome = false := by
  decide

/-! ## Sorting lemmas for the professor-service selection -/

theorem scoreLe_total (a b : RmpNode × Nat) : scoreLe a b = true ∨ scoreLe b a = true := by
  unfold scoreLe
  simp only [Bool.or_eq_true, Bool.and_eq_true, decide_eq_true_eq]
  omega

theorem scoreLe_trans {a b c : RmpNode × Nat} (h1 : scoreLe a b = true)
    (h2 : scoreLe b c = true) : scoreLe a c = true := by
  unfold scoreLe at *
  simp only [Bool.or_eq_true, Bool.and_eq_true, decide_eq_true_eq] at *
  omega

theorem scoreLe_refl (a : RmpNode × Nat) : scoreLe a a = true := by
  unfold scoreLe
  simp

theorem mem_insertScored {x b : RmpNode × Nat} :
    ∀ {l : List (RmpNode × Nat)}, b ∈ insertScored x l ↔ b = x ∨ b ∈ l := by
  intro l
  induction l with
  | nil => simp [insertScored]
  | cons y ys ih =>
    rw [insertScored]
    by_cases hyx : scoreLe y x = true
    · rw [if_pos hyx]
      simp only [List.mem_cons, ih]
      tauto
    · rw [if_neg hyx]
      simp only [List.mem_cons]

theorem pairwise_insertScored {x : RmpNode × Nat} :
    ∀ {l : List (RmpNode × Nat)}, l.Pairwise (fun a b => scoreLe a b = true) →
      (insertScored x l).Pairwise (fun a b => scoreLe a b = true) := by
  intro l
  induction l with
  | nil => intro _; simp [insertScored, List.pairwise_cons]
  | cons y ys ih =>
    intro hl
    obtain ⟨hy, hys⟩ := List.pairwise_cons.mp hl
    rw [insertScored]
    by_cases hyx : scoreLe y x = true
    · rw [if_pos hyx]
      rw [List.pairwise_cons]
      refine ⟨?_, ih hys⟩
      intro b hb
      rcases mem_insertScored.mp hb with rfl | hb
      · exact hyx
      · exact hy b hb
    · rw [if_neg hyx]
      have hxy : scoreLe x y = true := by
        rcases scoreLe_total x y with h | h
        · exact h
        · exact absurd h hyx
      rw [List.pairwise_cons]
      refine ⟨?_, hl⟩
      intro b hb
      rcases List.mem_cons.mp hb with rfl | hb
      · exact hxy
      · exact scoreLe_trans hxy (hy b hb)

theorem pairwise_sortScored (l : List (RmpNode × Nat)) :
    (sortScored l).Pairwise (fun a b => scoreLe a b = true) := by
  unfold sortScored
  have key : ∀ (ll acc : List (RmpNode × Nat)),
      acc.Pairwise (fun a b => scoreLe a b = true) →
      (ll.foldl (fun acc x => insertScored x acc) acc).Pairwise
        (fun a b => scoreLe a b = true) := by
    intro ll
    induction ll with
    | nil => intro acc ha; exact ha
    | cons a as ih =>
      intro acc ha
      exact ih _ (pairwise_insertScored ha)
  exact key l [] List.Pairwise.nil

theorem mem_sortScored {b : RmpNode × Nat} {l : List (RmpNode × Nat)} :
    b ∈ sortScored l ↔ b ∈ l := by
  unfold sortScored
  have key : ∀ (ll acc : List (RmpNode × Nat)),
      b ∈ ll.foldl (fun acc x => insertScored x acc) acc ↔ b ∈ acc ∨ b ∈ ll := by
    intro ll
    induction ll with
    | nil => intro acc; simp
    | cons a as ih =>
      intro acc
      rw [List.foldl_cons, ih, mem_insertScored]
      simp only [List.mem_cons]
      tauto
  rw [key l []]
  simp

/-- Every element of `scoredOf` is an input edge paired with its score,
and the score is positive. -/
theorem mem_scoredOf {p : RmpNode × Nat} {edges : List RmpNode} {name : List Char}
    (h : p ∈ scoredOf edges name) :
    p.1 ∈ edges ∧ p.2 = scoreCandidate p.1 (normalizeName name) ∧ 0 < p.2 := by
  unfold scoredOf at h
  obtain ⟨h1, h2⟩ := List.mem_filter.mp h
  obtain ⟨e, he, hpe⟩ := List.mem_map.mp h1
  refine ⟨?_, ?_, by simpa using h2⟩
  · rw [← hpe]
    exact he
  · rw [← hpe]

theorem scoredOf_intro {m : RmpNode} {edges : List RmpNode} {name : List Char}
    (hm : m ∈ edges) (hpos : 0 < scoreCandidate m (normalizeName name)) :
    (m, scoreCandidate m (normalizeName name)) ∈ scoredOf edges name := by
  unfold scoredOf
  refine List.mem_filter.mpr ⟨List.mem_map.mpr ⟨m, hm, rfl⟩, by simpa using hpos⟩

/-- Selection property of `fetchProfessorFromRmp`: a returned node is an
input edge with positive score, and every other positively-scored edge
either scores strictly lower, or ties on score with at most as many
ratings. -/
theorem fetchSelect_spec (edges : List RmpNode) (name : List Char) (n : RmpNode)
    (h : fetchProfessorFromRmp edges name = some n) :
    n ∈ edges ∧ 0 < scoreCandidate n (normalizeName name)
    ∧ ∀ m ∈ edges, 0 < scoreCandidate m (normalizeName name) →
        scoreCandidate m (normalizeName name) < scoreCandidate n (normalizeName name)
        ∨ (scoreCandidate m (normalizeName name) = scoreCandidate n (normalizeName name)
           ∧ m.numRatings ≤ n.numRatings) := by
  unfold fetchProfessorFromRmp at h
  split at h
  · cases h
  split at h
  · cases h
  split at h
  · cases h
  rename_i p rest hsort
  injection h with hn
  subst hn
  have hpmem : p ∈ scoredOf edges name := by
    refine mem_sortScored.mp ?_
    rw [hsort]
    exact List.mem_cons_self p rest
  obtain ⟨hpe, hps, hppos⟩ := mem_scoredOf hpmem
  refine ⟨hpe, hps ▸ hppos, ?_⟩
  intro m hm hmpos
  have hmmem := scoredOf_intro hm hmpos
  have hmsorted : (m, scoreCandidate m (normalizeName name)) ∈ p :: rest := by
    rw [← hsort]
    exact mem_sortScored.mpr hmmem
  have hpw := pairwise_sortScored (scoredOf edges name)
  rw [hsort] at hpw
  have hle : scoreLe p (m, scoreCandidate m (normalizeName name)) = true := by
    rcases List.mem_cons.mp hmsorted with he | hmem
    · rw [he]
      exact scoreLe_refl _
    · exact (List.pairwise_cons.mp hpw).1 _ hmem
  unfold scoreLe at hle
  simp only [Bool.or_eq_true, Bool.and_eq_true, decide_eq_true_eq] at hle
  rw [← hps]
  rcases hle with hlt | ⟨heq, hnum⟩
  · exact .inl hlt
  · exact .inr ⟨heq.symm, hnum⟩

/-- C4 (amended): `RateMyProfAPI.searchProfessor` does NOT prefer the
candidate with more matched tokens or more ratings — it returns the first
narrowed candidate accepted by `isNameMatch` (see the counterexample).
The claimed preference is implemented only in
`ProfessorService.fetchProfessorFromRmp`: a returned node is an input edge
with positive score, and every other positively-scored edge either scores
strictly lower, or ties on score and has at most as many ratings. -/
theorem rmp_service_selects_best_scored (edges : List RmpNode) (name : List Char) (n : RmpNode)
    (h : fetchProfessorFromRmp edges name = some n) :
    n ∈ edges ∧ 0 < scoreCandidate n (normalizeName name)
    ∧ ∀ m ∈ edges, 0 < scoreCandidate m (normalizeName name) →
        scoreCandidate m (normalizeName name) < scoreCandidate n (normalizeName name)
        ∨ (scoreCandidate m (normalizeName name) = scoreCandidate n (normalizeName name)
           ∧ m.numRatings ≤ n.numRatings) :=
  fetchSelect_spec edges name n h

theorem rmp_service_selects_best_scored_witness :
    fetchProfessorFromRmp
        [⟨['j','a','n','e'], ['d','o','e'], 3⟩, ⟨['j','o','h','n'], ['d','o','e'], 9⟩]
        ['d','o','e']
      = some ⟨['j','o','h','n'], ['d','o','e'], 9⟩
    ∧ (⟨['j','o','h','n'], ['d','o','e'], 9⟩ : RmpNode)
        ∈ [⟨['j','a','n','e'], ['d','o','e'], 3⟩, ⟨['j','o','h','n'], ['d','o','e'], 9⟩]
    ∧ 0 < scoreCandidate ⟨['j','o','h','n'], ['d','o','e'], 9⟩ (normalizeName ['d','o','e'])
    ∧ ∀ m ∈ ([⟨['j','a','n','e'], ['d','o','e'], 3⟩, ⟨['j','o','h','n'], ['d','o','e'], 9⟩] :
          List RmpNode), 0 < scoreCandidate m (normalizeName ['d','o','e']) →
        scoreCandidate m (normalizeName ['d','o','e'])
            < scoreCandidate ⟨['j','o','h','n'], ['d','o','e'], 9⟩ (normalizeName ['d','o','e'])
        ∨ (scoreCandidate m (normalizeName ['d','o','e'])
              = scoreCandidate ⟨['j','o','h','n'], ['d','o','e'], 9⟩ (normalizeName ['d','o','e'])
           ∧ m.numRatings ≤ (⟨['j','o','h','n'], ['d','o','e'], 9⟩ : RmpNode).numRatings) := by
  refine ⟨by decide, ?_⟩
  have h := rmp_service_selects_best_scored
    [⟨['j','a','n','e'], ['d','o','e'], 3⟩, ⟨['j','o','h','n'], ['d','o','e'], 9⟩]
    ['d','o','e'] ⟨['j','o','h','n'], ['d','o','e'], 9⟩ (by decide)
  exact h

/-- C4 counterexample: for the query "john m smith" and the candidates
[A = "john smith" (1 rating), B = "john michael smith" (5 ratings)], BOTH
pass `isNameMatch`, B has strictly more matched tokens (3 vs 2) and more
ratings, yet `searchProfessor` returns A — it takes the first accepted
candidate in narrowed insertion order and never compares matched-token
counts or rating counts. -/
theorem searchProfessor_first_match_wins_cex :
    searchProfessor ['j','o','h','n',' ','m',' ','s','m','i','t','h']
        [⟨['j','o','h','n',' ','s','m','i','t','h'], 1⟩,
         ⟨['j','o','h','n',' ','m','i','c','h','a','e','l',' ','s','m','i','t','h'], 5⟩]
      = some ⟨['j','o','h','n',' ','s','m','i','t','h'], 1⟩
    ∧ isNameMatch ['j','o','h','n',' ','m','i','c','h','a','e','l',' ','s','m','i','t','h']
        ['j','o','h','n',' ','m',' ','s','m','i','t','h'] = true
    ∧ actualMatches
        (cleanParts (lowTrim ['j','o','h','n',' ','m','i','c','h','a','e','l',' ','s','m','i','t','h']))
        (cleanParts (lowTrim ['j','o','h','n',' ','m',' ','s','m','i','t','h'])) = 3
    ∧ actualMatches
        (cleanParts (lowTrim ['j','o','h','n',' ','s','m','i','t','h']))
        (cleanParts (lowTrim ['j','o','h','n',' ','m',' ','s','m','i','t','h'])) = 2
    ∧ (1 : Nat) < 5 := by
  decide

/-- If a candidate scores positively, its normalized full name's last
token equals the normalized target's last token (the last-name gate of
`scoreCandidate`, professor-service.ts lines 255-260). -/
theorem scoreCandidate_pos_last_eq {node : RmpNode} {target : List Char}
    (h : 0 < scoreCandidate node target) :
    (partsB (normalizeName (buildFullName node))).getLast? = (partsB target).getLast?
    ∧ ((partsB target).getLast?).isSome = true := by
  unfold scoreCandidate at h
  split at h
  · simp at h
  split at h
  · rename_i tl cl hgt hgc
    split at h
    · simp at h
    · rename_i hne
      rw [not_ne_iff] at hne
      subst hne
      exact ⟨hgc.trans hgt.symm, by rw [hgt]; rfl⟩
  · simp at h

/-- C2 (amended): the surname gate is NOT enforced by
`RateMyProfAPI.isNameMatch` — a candidate whose last token differs from the
query's can still be matched (see the counterexample; the spec's
"John Smith" vs "John Jones" example is still rejected, but by the
token-overlap threshold, not by a surname comparison).  The gate IS
enforced by `ProfessorService`: any candidate returned by
`fetchProfessorFromRmp` shares the query's (nonempty) last name-token. -/
theorem rmp_service_surname_gate (edges : List RmpNode) (name : List Char) (n : RmpNode)
    (h : fetchProfessorFromRmp edges name = some n) :
    (partsB (normalizeName (buildFullName n))).getLast?
      = (partsB (normalizeName name)).getLast?
    ∧ ((partsB (normalizeName name)).getLast?).isSome = true := by
  have hbest := fetchSelect_spec edges name n h
  exact scoreCandidate_pos_last_eq hbest.2.1

theorem rmp_service_surname_gate_witness :
    fetchProfessorFromRmp [⟨['j','a','n','e'], ['d','o','e'], 3⟩] ['j','a','n','e',' ','d','o','e']
      = some ⟨['j','a','n','e'], ['d','o','e'], 3⟩
    ∧ (partsB (normalizeName (buildFullName ⟨['j','a','n','e'], ['d','o','e'], 3⟩))).getLast?
        = (partsB (normalizeName ['j','a','n','e',' ','d','o','e'])).getLast?
    ∧ ((partsB (normalizeName ['j','a','n','e',' ','d','o','e'])).getLast?).isSome = true :=
  ⟨by decide,
   (rmp_service_surname_gate [⟨['j','a','n','e'], ['d','o','e'], 3⟩]
      ['j','a','n','e',' ','d','o','e'] ⟨['j','a','n','e'], ['d','o','e'], 3⟩ (by decide)).1,
   (rmp_service_surname_gate [⟨['j','a','n','e'], ['d','o','e'], 3⟩]
      ['j','a','n','e',' ','d','o','e'] ⟨['j','a','n','e'], ['d','o','e'], 3⟩ (by decide)).2⟩

/-- C2 counterexample: `isNameMatch` returns true for the candidate
"anna maria smith" against the query "anna maria" although the candidate's
last token ("smith") differs from the query's ("maria") — the substring
shortcut accepts before any token comparison, so matched: true does NOT
imply equal last tokens. -/
theorem isNameMatch_no_surname_gate_cex :
    isNameMatch ['a','n','n','a',' ','m','a','r','i','a',' ','s','m','i','t','h']
        ['a','n','n','a',' ','m','a','r','i','a'] = true
    ∧ (cleanParts (lowTrim ['a','n','n','a',' ','m','a','r','i','a',' ','s','m','i','t','h'])).getLast?
        ≠ (cleanParts (lowTrim ['a','n','n','a',' ','m','a','r','i','a'])).getLast? := by
  decide

/-- C6 (amended): the first-initial abbreviation key IS generated by
`generateSearchNames` (professor-name-utils.ts, used for the database
search-name list) for every name whose normalized form has at least two
parts; but it is NOT generated by `RateMyProfAPI.generateSearchKeys`, the
function that feeds the in-memory index (see the counterexample). -/
theorem generateSearchNames_first_initial_key (fullName : List Char)
    (h : 2 ≤ (searchNameParts fullName).length) :
    firstInitialKey fullName ∈ generateSearchNames fullName := by
  unfold generateSearchNames
  rw [if_pos h]
  exact mem_insertUniq_self _ _

theorem generateSearchNames_first_initial_key_witness :
    2 ≤ (searchNameParts ['M','o','h','a','m','m','a','d',' ','S','a','d','e','g','h','i']).length
    ∧ firstInitialKey ['M','o','h','a','m','m','a','d',' ','S','a','d','e','g','h','i']
        ∈ generateSearchNames ['M','o','h','a','m','m','a','d',' ','S','a','d','e','g','h','i'] :=
  ⟨by decide,
   generateSearchNames_first_initial_key ['M','o','h','a','m','m','a','d',' ','S','a','d','e','g','h','i']
     (by decide)⟩

/-- C6 counterexample: for "Mohammad Sadeghi" (two tokens), the
first-initial key "m sadeghi" is absent from
`RateMyProfAPI.generateSearchKeys` — that function only adds the full
name, the words, the first+last combination, hyphen parts, and nicknames
(ratemyprof-api.ts lines 232-273 contain no first-initial step) — while
`generateSearchNames` does contain it. -/
theorem generateSearchKeys_missing_first_initial_cex :
    (gskWords ['M','o','h','a','m','m','a','d',' ','S','a','d','e','g','h','i']).length = 2
    ∧ ['m',' ','s','a','d','e','g','h','i']
        ∉ generateSearchKeys ['M','o','h','a','m','m','a','d',' ','S','a','d','e','g','h','i']
    ∧ ['m',' ','s','a','d','e','g','h','i']
        ∈ generateSearchNames ['M','o','h','a','m','m','a','d',' ','S','a','d','e','g','h','i'] := by
  decide

end CourseScout
